import Mathlib

/-!
Shallow embedding of the mock streaming-response simulator of the
`ai-testing-hono` repository (files `src/test/streaming-mocks.js`,
`src/test/dynamic-mocks.js` and their inlined copies in `src/app.test.js`).

JavaScript strings are modelled as `List Char`.  The pattern matcher, the
word-splitting chunk emitter and the two mock HTTP handlers are translated
function by function from the JavaScript source.  Real-time delays
(`delay(100)` / `delay(200)`) do not affect the content or order of the
emitted chunks and are not modelled; the wire serialization
(`data: <json>\n\n` framing and `JSON.stringify` of the tool arguments) is
modelled structurally: a chunk record keeps the fields that the JSON
serializer would render, and the tool-call `arguments` string keeps the
key/value map handed to `JSON.stringify` (which is injective on such maps).
-/

namespace AiTestingHono

/-- Function `lowerL s` models JavaScript `s.toLowerCase()` on a string (ASCII model,
matching `Char.toLower`). -/
def lowerL (s : List Char) : List Char := s.map Char.toLower

/-- Predicate `startsWithL p l` holds when `p` is a leading segment of `l`
(used to express JavaScript `String.prototype.includes`). -/
def startsWithL : List Char → List Char → Bool
  | [], _ => true
  | _ :: _, [] => false
  | p :: ps, c :: cs => p == c && startsWithL ps cs

/-- Predicate `includesSub haystack needle` models JavaScript
`haystack.includes(needle)`: `needle` occurs contiguously in `haystack`. -/
def includesSub : List Char → List Char → Bool
  | [], needle => needle.isEmpty
  | c :: t, needle => startsWithL needle (c :: t) || includesSub t needle

/-- The loop condition of both mocks
(`userMessage.toLowerCase().includes(pattern.toLowerCase())`,
`src/test/streaming-mocks.js:62`, `src/test/dynamic-mocks.js:11`). -/
def patternMatches (userMessage pat : List Char) : Bool :=
  includesSub (lowerL userMessage) (lowerL pat)

/-- A canned response descriptor: the values of the mock-configuration
objects.  `text` and `toolUse` carry a `type` tag in the JavaScript source
(`'text'` / `'tool_call'`); `structuredFields` is a plain object with no
`type` field (the profile mocks fed to `createDynamicOpenAIMock`). -/
inductive ResponseDescriptor where
  | text (content : List Char)
  | toolUse (tool_name : List Char) (tool_args : List (List Char × List Char))
      (final_response : List Char)
  | structuredFields (fields : List (List Char × List Char))
deriving DecidableEq, Inhabited

/-- First-match scan over the pattern map
(`for (const [pattern, response] of Object.entries(...)) if (... includes ...)`):
returns the value of the first entry whose lowercased pattern occurs in the
lowercased user message. -/
def matchLoop (userMessage : List Char) :
    List (List Char × ResponseDescriptor) → Option ResponseDescriptor
  | [] => none
  | (pat, resp) :: rest =>
    if patternMatches userMessage pat then some resp
    else matchLoop userMessage rest

/-- The `delta.tool_calls[0]` record built at
`src/test/streaming-mocks.js:102-110`.  `argumentsObj` keeps the map that the
source hands to `JSON.stringify` for the `arguments` field. -/
structure ToolCallDelta where
  callId : List Char
  fnName : List Char
  argumentsObj : List (List Char × List Char)
deriving DecidableEq

/-- One streamed chunk, as built by `createStreamChunk`: the
`choices[0].delta.content`, `choices[0].delta.tool_calls` and
`choices[0].finish_reason` fields of the serialized JSON. -/
structure StreamChunk where
  deltaContent : Option (List Char)
  deltaToolCalls : Option ToolCallDelta
  finishReason : Option (List Char)
deriving DecidableEq

/-- Translation of `createStreamChunk(content, isLast, toolCall)`
(`src/test/streaming-mocks.js:4-26`): `delta.content` is set only when
`content` is truthy (a non-empty string), `delta.tool_calls` only when a
tool call is given, and `finish_reason` is `'stop'` when `isLast`, else
`null`. -/
def createStreamChunk (content : Option (List Char)) (isLast : Bool)
    (toolCall : Option ToolCallDelta) : StreamChunk :=
  { deltaContent :=
      match content with
      | some c => if c.isEmpty then none else some c
      | none => none
    deltaToolCalls := toolCall
    finishReason := if isLast then some "stop".toList else none }

/-- One item written to the response stream: a `data: <chunk json>\n\n`
frame or the literal `data: [DONE]\n\n` sentinel. -/
inductive WireItem where
  | chunkData (c : StreamChunk)
  | doneSentinel
deriving DecidableEq

/-- JavaScript `content.split(' ')`: split on every single space character;
adjacent separators yield empty fragments, and the empty string yields
`[""]`. -/
def splitSpace : List Char → List (List Char)
  | [] => [[]]
  | c :: cs =>
    if c = ' ' then [] :: splitSpace cs
    else
      match splitSpace cs with
      | [] => [[c]]
      | w :: ws => (c :: w) :: ws

/-- The word loop of the text branch (`src/test/streaming-mocks.js:72-76`):
one chunk per word, each carrying `word + ' '`. -/
def textWordChunks (content : List Char) : List WireItem :=
  (splitSpace content).map
    (fun w => WireItem.chunkData (createStreamChunk (some (w ++ [' '])) false none))

/-- The text-streaming branch (`src/test/streaming-mocks.js:64-84`): the
word chunks, then `createStreamChunk('', true)`, then `data: [DONE]`. -/
def emitText (content : List Char) : List WireItem :=
  textWordChunks content ++
    [WireItem.chunkData (createStreamChunk (some []) true none), WireItem.doneSentinel]

/-- The first chunk of the tool-call branch
(`src/test/streaming-mocks.js:102-111`). -/
def toolCallChunk (tool_name : List Char)
    (tool_args : List (List Char × List Char)) : StreamChunk :=
  createStreamChunk none false
    (some { callId := "call_test_tool".toList
            fnName := tool_name
            argumentsObj := tool_args })

/-- The tool-call streaming branch (`src/test/streaming-mocks.js:95-127`):
the tool-call chunk, then the words of `final_response`, the final chunk
and the sentinel exactly as in the text branch. -/
def emitToolCall (tool_name : List Char)
    (tool_args : List (List Char × List Char))
    (final_response : List Char) : List WireItem :=
  WireItem.chunkData (toolCallChunk tool_name tool_args) :: emitText final_response

/-- The fallback apology text (`src/test/streaming-mocks.js:145`). -/
def fallbackText : List Char := "Sorry, I cannot help with that.".toList

/-- The fallback stream (`src/test/streaming-mocks.js:141-150`): one chunk
carrying the apology text together with the finish marker, then the
sentinel. -/
def emitFallback : List WireItem :=
  [WireItem.chunkData (createStreamChunk (some fallbackText) true none),
   WireItem.doneSentinel]

/-- The pattern loop of the streaming handler
(`src/test/streaming-mocks.js:61-139`).  On a match the `text` and
`tool_call` branches return a stream; a matched entry of any other shape
falls through and the loop continues with the next entry. -/
def streamScan (userMessage : List Char) :
    List (List Char × ResponseDescriptor) → Option (List WireItem)
  | [] => none
  | (pat, resp) :: rest =>
    if patternMatches userMessage pat then
      match resp with
      | ResponseDescriptor.text content => some (emitText content)
      | ResponseDescriptor.toolUse n a f => some (emitToolCall n a f)
      | ResponseDescriptor.structuredFields _ => streamScan userMessage rest
    else streamScan userMessage rest

/-- The streamed body produced for a streaming request
(`src/test/streaming-mocks.js:61-158`): the matched branch's stream, or the
fallback stream when the loop finds nothing. -/
def streamBody (userMessage : List Char)
    (streamResponses : List (List Char × ResponseDescriptor)) : List WireItem :=
  (streamScan userMessage streamResponses).getD emitFallback

/-- The body of a non-streamed JSON reply: both mocks answer with a
`tool_calls[0].function` whose `arguments` field is `JSON.stringify` of
either the matched response object or an `{ error: ... }` object. -/
inductive NonStreamReply where
  | embeddedArgs (resp : ResponseDescriptor)
  | embeddedError (msg : List Char)
deriving DecidableEq

/-- Translation of `createDynamicOpenAIMock` (`src/test/dynamic-mocks.js:4-65`): scan the
map; on the first match embed `JSON.stringify(response)` in the reply,
otherwise embed the `"No mock configured for this prompt"` error object. -/
def dynamicMockReply (userMessage : List Char)
    (mockResponses : List (List Char × ResponseDescriptor)) : NonStreamReply :=
  match matchLoop userMessage mockResponses with
  | some resp => NonStreamReply.embeddedArgs resp
  | none => NonStreamReply.embeddedError "No mock configured for this prompt".toList

/-- A reply of the streaming mock: a single JSON object or a chunked
stream. -/
inductive MockHttpReply where
  | jsonReply (r : NonStreamReply)
  | streamReply (items : List WireItem)
deriving DecidableEq

/-- Translation of `createStreamingOpenAIMock` (`src/test/streaming-mocks.js:28-159`):
when `body.stream` is falsy, always the fixed `"No mock configured"` error
object (lines 34-58, before any pattern matching); otherwise the streamed
body. -/
def streamingMockHandler (stream : Bool) (userMessage : List Char)
    (streamResponses : List (List Char × ResponseDescriptor)) : MockHttpReply :=
  if stream = false then
    MockHttpReply.jsonReply (NonStreamReply.embeddedError "No mock configured".toList)
  else
    MockHttpReply.streamReply (streamBody userMessage streamResponses)

/-- A `messages` array entry of the request body. -/
structure MockMessage where
  role : List Char
  content : List Char
deriving DecidableEq

/-- Translation of `messages.find(msg => msg.role === 'user')?.content || ''`
(`src/test/streaming-mocks.js:31`). -/
def findUserContent (messages : List MockMessage) : List Char :=
  match messages.find? (fun m => m.role == "user".toList) with
  | some m => m.content
  | none => []

/-- Translation of the userMessage extraction
`body.prompt || body.messages?.find(msg => msg.role === 'user')?.content || ''`
(`src/app.test.js:55`): a truthy (non-empty) `prompt` wins, else the first
user message's content, else the empty string. -/
def extractUserMessage (prompt : Option (List Char))
    (messages : Option (List MockMessage)) : List Char :=
  match prompt with
  | some p =>
    if p.isEmpty then (messages.map findUserContent).getD [] else p
  | none => (messages.map findUserContent).getD []

/-- The text fragments of all text-delta chunks of a wire sequence, in
order. -/
def textDeltas (items : List WireItem) : List (List Char) :=
  items.filterMap
    (fun it =>
      match it with
      | WireItem.chunkData c => c.deltaContent
      | WireItem.doneSentinel => none)

/-- The chunks of a wire sequence (dropping the sentinel). -/
def wireChunks (items : List WireItem) : List StreamChunk :=
  items.filterMap
    (fun it =>
      match it with
      | WireItem.chunkData c => some c
      | WireItem.doneSentinel => none)

/-- Strip exactly one trailing space, when present. -/
def stripOneTrailingSpace (w : List Char) : List Char :=
  if w.getLast? = some ' ' then w.dropLast else w

/-- Join word fragments with single spaces (the reading-back of a
word-split string). -/
def joinSpace : List (List Char) → List Char
  | [] => []
  | [w] => w
  | w :: ws => w ++ ' ' :: joinSpace ws

/-! ### Lemmas about substring matching -/

theorem startsWithL_iff (p l : List Char) :
    startsWithL p l = true ↔ ∃ t, l = p ++ t := by
  induction p generalizing l with
  | nil => simp [startsWithL]
  | cons a as ih =>
    cases l with
    | nil =>
      simp [startsWithL]
    | cons b bs =>
      simp only [startsWithL, Bool.and_eq_true, beq_iff_eq, ih, List.cons_append,
        List.cons.injEq]
      constructor
      · rintro ⟨rfl, t, rfl⟩
        exact ⟨t, rfl, rfl⟩
      · rintro ⟨t, rfl, rfl⟩
        exact ⟨rfl, t, rfl⟩

theorem includesSub_iff (l n : List Char) :
    includesSub l n = true ↔ ∃ pre post, l = pre ++ n ++ post := by
  induction l with
  | nil =>
    simp only [includesSub, List.isEmpty_iff]
    constructor
    · rintro rfl
      exact ⟨[], [], rfl⟩
    · rintro ⟨pre, post, h⟩
      rcases List.append_eq_nil.mp h.symm with ⟨h1, h2⟩
      exact (List.append_eq_nil.mp h1).2
  | cons c t ih =>
    simp only [includesSub, Bool.or_eq_true, startsWithL_iff, ih]
    constructor
    · rintro (⟨post, hpost⟩ | ⟨pre, post, hp⟩)
      · exact ⟨[], post, by simpa using hpost⟩
      · exact ⟨c :: pre, post, by simp [hp]⟩
    · rintro ⟨pre, post, hp⟩
      cases pre with
      | nil =>
        exact Or.inl ⟨post, by simpa using hp⟩
      | cons p ps =>
        simp only [List.cons_append, List.cons.injEq] at hp
        exact Or.inr ⟨ps, post, hp.2⟩

theorem includesSub_nil_right (l : List Char) : includesSub l [] = true := by
  cases l with
  | nil => rfl
  | cons c t => simp [includesSub, startsWithL]

/-- Predicate `patternMatches` is exactly "the lowercased pattern is a contiguous
substring of the lowercased user message". -/
theorem patternMatches_iff (u p : List Char) :
    patternMatches u p = true ↔
      ∃ pre post, lowerL u = pre ++ lowerL p ++ post := by
  unfold patternMatches
  exact includesSub_iff (lowerL u) (lowerL p)

theorem lowerL_eq_nil_iff (p : List Char) : lowerL p = [] ↔ p = [] := by
  simp [lowerL]

theorem patternMatches_nil_left (p : List Char) (hp : p ≠ []) :
    patternMatches [] p = false := by
  unfold patternMatches
  cases hl : lowerL p with
  | nil => exact absurd ((lowerL_eq_nil_iff p).mp hl) hp
  | cons c cs => simp [lowerL, includesSub, hl]

theorem patternMatches_nil_right (u : List Char) :
    patternMatches u [] = true := by
  unfold patternMatches
  simpa [lowerL] using includesSub_nil_right (lowerL u)

/-! ### Lemmas about the pattern-matching loop -/

theorem matchLoop_eq_find (u : List Char)
    (ps : List (List Char × ResponseDescriptor)) :
    matchLoop u ps = (ps.find? fun e => patternMatches u e.1).map Prod.snd := by
  induction ps with
  | nil => rfl
  | cons e rest ih =>
    obtain ⟨pat, resp⟩ := e
    by_cases h : patternMatches u pat
    · simp [matchLoop, List.find?, h]
    · simp only [Bool.not_eq_true] at h
      simp [matchLoop, List.find?, h, ih]

theorem matchLoop_eq_none_iff (u : List Char)
    (ps : List (List Char × ResponseDescriptor)) :
    matchLoop u ps = none ↔ ∀ e ∈ ps, patternMatches u e.1 = false := by
  induction ps with
  | nil => simp [matchLoop]
  | cons e rest ih =>
    obtain ⟨pat, resp⟩ := e
    by_cases h : patternMatches u pat
    · simp [matchLoop, h]
    · simp only [Bool.not_eq_true] at h
      simp [matchLoop, h, ih]

theorem matchLoop_mem (u : List Char)
    (ps : List (List Char × ResponseDescriptor)) (d : ResponseDescriptor)
    (h : matchLoop u ps = some d) :
    d ∈ ps.map Prod.snd := by
  induction ps with
  | nil => simp [matchLoop] at h
  | cons e rest ih =>
    obtain ⟨pat, resp⟩ := e
    by_cases hm : patternMatches u pat
    · simp only [matchLoop, hm, if_pos, Option.some.injEq] at h
      simp [h.symm]
    · simp only [Bool.not_eq_true] at hm
      simp only [matchLoop, hm, Bool.false_eq_true, if_false] at h
      simp [ih h]

/-- First-match characterization of the loop: if entry `i` matches and no
earlier entry does, the loop answers entry `i`'s response. -/
theorem matchLoop_first (u : List Char)
    (ps : List (List Char × ResponseDescriptor)) (i : ℕ) (hi : i < ps.length)
    (hmatch : patternMatches u (ps.get ⟨i, hi⟩).1 = true)
    (hfirst : ∀ j (hj : j < i),
      patternMatches u (ps.get ⟨j, lt_trans hj hi⟩).1 = false) :
    matchLoop u ps = some (ps.get ⟨i, hi⟩).2 := by
  induction ps generalizing i with
  | nil => exact absurd hi (Nat.not_lt_zero i)
  | cons e rest ih =>
    obtain ⟨pat, resp⟩ := e
    cases i with
    | zero =>
      simp only [List.get] at hmatch
      simp [matchLoop, hmatch]
    | succ i =>
      have h0 : patternMatches u pat = false := hfirst 0 (Nat.succ_pos i)
      simp only [matchLoop, h0, Bool.false_eq_true, if_false]
      have hi' : i < rest.length := Nat.lt_of_succ_lt_succ hi
      exact ih i hi' hmatch
        (fun j hj => hfirst (j + 1) (Nat.succ_lt_succ hj))

/-! ### Lemmas about word splitting and rejoining -/

theorem splitSpace_ne_nil (l : List Char) : splitSpace l ≠ [] := by
  cases l with
  | nil => simp [splitSpace]
  | cons c cs =>
    by_cases hc : c = ' '
    · simp [splitSpace, hc]
    · simp only [splitSpace, hc, if_false]
      cases h : splitSpace cs with
      | nil => simp
      | cons w ws => simp

theorem joinSpace_cons_cons (w : List Char) (w' : List Char)
    (ws : List (List Char)) :
    joinSpace (w :: w' :: ws) = w ++ ' ' :: joinSpace (w' :: ws) := by
  rfl

theorem joinSpace_cons_head (c : Char) (w : List Char)
    (ws : List (List Char)) :
    joinSpace ((c :: w) :: ws) = c :: joinSpace (w :: ws) := by
  cases ws with
  | nil => rfl
  | cons w' ws' => simp [joinSpace_cons_cons]

/-- Splitting on single spaces and rejoining with single spaces is the
identity: `split(' ')` loses no information. -/
theorem joinSpace_splitSpace (l : List Char) :
    joinSpace (splitSpace l) = l := by
  induction l with
  | nil => rfl
  | cons c cs ih =>
    by_cases hc : c = ' '
    · subst hc
      simp only [splitSpace, if_pos rfl]
      cases h : splitSpace cs with
      | nil => exact absurd h (splitSpace_ne_nil cs)
      | cons w ws =>
        rw [h] at ih
        calc joinSpace ([] :: w :: ws) = ' ' :: joinSpace (w :: ws) := rfl
          _ = ' ' :: cs := by rw [ih]
    · simp only [splitSpace, hc, if_false]
      cases h : splitSpace cs with
      | nil => exact absurd h (splitSpace_ne_nil cs)
      | cons w ws =>
        rw [h] at ih
        rw [joinSpace_cons_head, ih]

theorem append_space_ne_nil (w : List Char) : (w ++ [' ']).isEmpty = false := by
  cases w <;> rfl

theorem stripOneTrailingSpace_append (w : List Char) :
    stripOneTrailingSpace (w ++ [' ']) = w := by
  unfold stripOneTrailingSpace
  rw [List.getLast?_concat]
  simp

/-! ### Lemmas about the emitted chunk sequences -/

/-- The text-delta fragments of the text branch: one per word, each the
word with one trailing space. -/
theorem textDeltas_emitText (content : List Char) :
    textDeltas (emitText content) =
      (splitSpace content).map (fun w => w ++ [' ']) := by
  unfold textDeltas emitText textWordChunks
  rw [List.filterMap_append, List.filterMap_map]
  have h2 : (List.filterMap
      (fun it => match it with
        | WireItem.chunkData c => c.deltaContent
        | WireItem.doneSentinel => none)
      [WireItem.chunkData (createStreamChunk (some []) true none),
       WireItem.doneSentinel]) = [] := rfl
  rw [h2, List.append_nil]
  rw [List.filterMap_eq_map_iff_forall_eq_some.mpr]
  intro w _
  simp [Function.comp, createStreamChunk, append_space_ne_nil]

theorem textDeltas_emitToolCall (n : List Char)
    (a : List (List Char × List Char)) (f : List Char) :
    textDeltas (emitToolCall n a f) = textDeltas (emitText f) := by
  unfold emitToolCall textDeltas
  rw [List.filterMap_cons]
  rfl

/-- No chunk produced by the word loop carries a finish reason or a tool
call. -/
theorem textWordChunks_fields (content : List Char) (ch : StreamChunk)
    (h : WireItem.chunkData ch ∈ textWordChunks content) :
    ch.finishReason = none ∧ ch.deltaToolCalls = none := by
  unfold textWordChunks at h
  rw [List.mem_map] at h
  obtain ⟨w, _, hw⟩ := h
  cases hw
  simp [createStreamChunk]

theorem wireChunks_mem (items : List WireItem) (ch : StreamChunk)
    (h : ch ∈ wireChunks items) : WireItem.chunkData ch ∈ items := by
  unfold wireChunks at h
  rw [List.mem_filterMap] at h
  obtain ⟨it, hit, heq⟩ := h
  cases it with
  | chunkData c =>
    simp only [Option.some.injEq] at heq
    cases heq
    exact hit
  | doneSentinel => simp at heq

/-- The chunk written by `createStreamChunk('', true)`. -/
theorem finalChunk_eq :
    createStreamChunk (some []) true none =
      { deltaContent := none
        deltaToolCalls := none
        finishReason := some "stop".toList } := rfl

/-- Every possible stream returned by the pattern loop is a text stream or
a tool-call stream. -/
theorem streamScan_some (u : List Char)
    (rs : List (List Char × ResponseDescriptor)) (items : List WireItem)
    (h : streamScan u rs = some items) :
    (∃ c, items = emitText c) ∨ ∃ n a f, items = emitToolCall n a f := by
  induction rs with
  | nil => simp [streamScan] at h
  | cons e rest ih =>
    obtain ⟨pat, resp⟩ := e
    by_cases hm : patternMatches u pat
    · cases resp with
      | text c =>
        simp only [streamScan, hm, if_pos, Option.some.injEq] at h
        exact Or.inl ⟨c, h.symm⟩
      | toolUse n a f =>
        simp only [streamScan, hm, if_pos, Option.some.injEq] at h
        exact Or.inr ⟨n, a, f, h.symm⟩
      | structuredFields fs =>
        simp only [streamScan, hm, if_pos] at h
        exact ih h
    · simp only [Bool.not_eq_true] at hm
      simp only [streamScan, hm, Bool.false_eq_true, if_false] at h
      exact ih h

theorem streamScan_none_of_no_match (u : List Char)
    (rs : List (List Char × ResponseDescriptor))
    (h : ∀ e ∈ rs, patternMatches u e.1 = false) :
    streamScan u rs = none := by
  induction rs with
  | nil => rfl
  | cons e rest ih =>
    obtain ⟨pat, resp⟩ := e
    have h0 : patternMatches u pat = false := h (pat, resp) (List.mem_cons_self _ _)
    simp only [streamScan, h0, Bool.false_eq_true, if_false]
    exact ih (fun e he => h e (List.mem_cons_of_mem _ he))

theorem wireChunks_append (a b : List WireItem) :
    wireChunks (a ++ b) = wireChunks a ++ wireChunks b := by
  unfold wireChunks
  exact List.filterMap_append a b _

theorem wireChunks_final_pair (cfin : StreamChunk) :
    wireChunks [WireItem.chunkData cfin, WireItem.doneSentinel] = [cfin] := rfl

/-- For a stream of shape `pre ++ [finish chunk, DONE]` with no finish
reason in `pre`, the stream holds exactly one finish-marker chunk. -/
theorem finish_count (pre : List WireItem) (cfin : StreamChunk)
    (hfin : cfin.finishReason = some "stop".toList)
    (hpre : ∀ ch, WireItem.chunkData ch ∈ pre → ch.finishReason = none) :
    ((wireChunks (pre ++ [WireItem.chunkData cfin, WireItem.doneSentinel])).filter
        (fun ch => ch.finishReason == some "stop".toList)).length = 1 := by
  rw [wireChunks_append, wireChunks_final_pair, List.filter_append]
  have h1 : (wireChunks pre).filter
      (fun ch => ch.finishReason == some "stop".toList) = [] := by
    apply List.filter_eq_nil_iff.mpr
    intro ch hch
    have hfr := hpre ch (wireChunks_mem pre ch hch)
    simp [hfr]
  have h2 : cfin.finishReason == some "stop".toList := by
    simp [hfin]
  rw [h1]
  simp [List.filter_cons, hfin]

/-- Every streamed body ends in a finish chunk followed by the `[DONE]`
sentinel, with no finish reason earlier in the stream. -/
theorem streamBody_finish_shape (u : List Char)
    (rs : List (List Char × ResponseDescriptor)) :
    ∃ pre cfin,
      streamBody u rs = pre ++ [WireItem.chunkData cfin, WireItem.doneSentinel]
      ∧ cfin.finishReason = some "stop".toList
      ∧ ∀ ch, WireItem.chunkData ch ∈ pre → ch.finishReason = none := by
  unfold streamBody
  cases hscan : streamScan u rs with
  | none =>
    refine ⟨[], createStreamChunk (some fallbackText) true none, rfl, rfl, ?_⟩
    intro ch hch
    simp at hch
  | some items =>
    rcases streamScan_some u rs items hscan with ⟨c, rfl⟩ | ⟨n, a, f, rfl⟩
    · refine ⟨textWordChunks c, createStreamChunk (some []) true none, rfl, rfl, ?_⟩
      intro ch hch
      exact (textWordChunks_fields c ch hch).1
    · refine ⟨WireItem.chunkData (toolCallChunk n a) :: textWordChunks f,
        createStreamChunk (some []) true none, rfl, rfl, ?_⟩
      intro ch hch
      rcases List.mem_cons.mp hch with heq | hmem
      · cases heq
        rfl
      · exact (textWordChunks_fields f ch hmem).1

/-! ### Claim theorems -/

/-- Claim C1: for every prompt and every pattern map containing at least
one entry whose lowercased pattern is a substring of the lowercased
prompt, the pattern matcher returns the descriptor of the first such entry
in insertion order, matching patterns case-insensitively as substrings. -/
theorem claim_C1 (prompt : List Char)
    (ps : List (List Char × ResponseDescriptor)) (i : ℕ) (hi : i < ps.length)
    (hmatch : ∃ pre post,
      lowerL prompt = pre ++ lowerL (ps.get ⟨i, hi⟩).1 ++ post)
    (hfirst : ∀ j (hj : j < i), ¬ ∃ pre post,
      lowerL prompt = pre ++ lowerL (ps.get ⟨j, lt_trans hj hi⟩).1 ++ post) :
    matchLoop prompt ps = some (ps.get ⟨i, hi⟩).2 := by
  apply matchLoop_first
  · exact (patternMatches_iff _ _).mpr hmatch
  · intro j hj
    exact Bool.eq_false_iff.mpr
      (fun hx => hfirst j hj ((patternMatches_iff _ _).mp hx))

/-- Witness for C1 on a concrete two-entry map: the prompt `"Weather"`
misses the first entry and hits the second (case-insensitively, as the
substring `"ea"`). -/
theorem claim_C1_witness :
    matchLoop "Weather".toList
      [("x".toList, ResponseDescriptor.text "a".toList),
       ("Ea".toList, ResponseDescriptor.text "b".toList)]
      = some (ResponseDescriptor.text "b".toList) := by
  have h := claim_C1 "Weather".toList
    [("x".toList, ResponseDescriptor.text "a".toList),
     ("Ea".toList, ResponseDescriptor.text "b".toList)] 1 (by decide)
    ⟨"w".toList, "ther".toList, by decide⟩
    (fun j hj => by
      interval_cases j
      intro hex
      have hx : patternMatches "Weather".toList "x".toList = true :=
        (patternMatches_iff _ _).mpr hex
      exact absurd hx (by decide))
  exact h

/-- Claim C2: emitting a non-empty `Text` content produces one text-delta
chunk per word, each being the word with exactly one trailing space (the
last word included); stripping one trailing space from each fragment
recovers the words, and joining them with single spaces reconstructs the
original content. -/
theorem claim_C2 (content : List Char) (h : content ≠ []) :
    textDeltas (emitText content) =
        (splitSpace content).map (fun w => w ++ [' '])
    ∧ (textDeltas (emitText content)).map stripOneTrailingSpace
        = splitSpace content
    ∧ joinSpace ((textDeltas (emitText content)).map stripOneTrailingSpace)
        = content := by
  have h1 := textDeltas_emitText content
  have h2 : (textDeltas (emitText content)).map stripOneTrailingSpace
      = splitSpace content := by
    rw [h1, List.map_map]
    have hfun : stripOneTrailingSpace ∘ (fun w => w ++ [' ']) = id :=
      funext fun w => stripOneTrailingSpace_append w
    rw [hfun, List.map_id]
  exact ⟨h1, h2, by rw [h2, joinSpace_splitSpace]⟩

/-- Witness for C2 on the concrete content `"hello world"`. -/
theorem claim_C2_witness :
    "hello world".toList ≠ []
    ∧ textDeltas (emitText "hello world".toList)
        = ["hello ".toList, "world ".toList]
    ∧ joinSpace ((textDeltas (emitText "hello world".toList)).map
        stripOneTrailingSpace) = "hello world".toList := by
  refine ⟨by decide, ?_, (claim_C2 "hello world".toList (by decide)).2.2⟩
  rw [(claim_C2 "hello world".toList (by decide)).1]
  decide

/-- Claim C3: every emitted sequence (text, tool-call and fallback cases
alike) holds exactly one finish marker (`finish_reason: 'stop'`), it never
repeats, and it is the final chunk before the `data: [DONE]` sentinel. -/
theorem claim_C3 (u : List Char)
    (rs : List (List Char × ResponseDescriptor)) :
    ∃ pre cfin,
      streamBody u rs = pre ++ [WireItem.chunkData cfin, WireItem.doneSentinel]
      ∧ cfin.finishReason = some "stop".toList
      ∧ (∀ ch, WireItem.chunkData ch ∈ pre → ch.finishReason = none)
      ∧ ((wireChunks (streamBody u rs)).filter
          (fun ch => ch.finishReason == some "stop".toList)).length = 1 := by
  obtain ⟨pre, cfin, hshape, hfin, hpre⟩ := streamBody_finish_shape u rs
  refine ⟨pre, cfin, hshape, hfin, hpre, ?_⟩
  rw [hshape]
  exact finish_count pre cfin hfin hpre

/-- Claim C4: a `ToolCall` descriptor emits the tool-call chunk (carrying
the tool name and the arguments handed to `JSON.stringify`) strictly
before every text-delta chunk of its final response, and a `Text`
descriptor emits no tool-call chunks at all. -/
theorem claim_C4 (n : List Char) (a : List (List Char × List Char))
    (f c : List Char) :
    (∃ tc : ToolCallDelta,
      (emitToolCall n a f)[0]? = some (WireItem.chunkData
        { deltaContent := none, deltaToolCalls := some tc, finishReason := none })
      ∧ tc.fnName = n ∧ tc.argumentsObj = a
      ∧ ∀ j ch, (emitToolCall n a f)[j]? = some (WireItem.chunkData ch) →
          ch.deltaContent.isSome = true → 0 < j)
    ∧ ∀ ch, WireItem.chunkData ch ∈ emitText c → ch.deltaToolCalls = none := by
  constructor
  · refine ⟨{ callId := "call_test_tool".toList, fnName := n, argumentsObj := a },
      ?_, rfl, rfl, ?_⟩
    · show (WireItem.chunkData (toolCallChunk n a) :: emitText f)[0]? = _
      rw [List.getElem?_cons_zero]
      rfl
    intro j ch hj hc
    cases j with
    | zero =>
      have hch : ch = toolCallChunk n a := by
        simp only [emitToolCall, List.getElem?_cons_zero, Option.some.injEq] at hj
        cases hj
        rfl
      rw [hch] at hc
      simp [toolCallChunk, createStreamChunk] at hc
    | succ j => exact Nat.succ_pos j
  · intro ch hch
    unfold emitText at hch
    rcases List.mem_append.mp hch with hmem | hmem
    · exact (textWordChunks_fields c ch hmem).2
    · rcases List.mem_cons.mp hmem with heq | hmem'
      · cases heq
        rfl
      · simp at hmem'

/-- Claim C5: with zero matching entries (the empty map included) the
matcher totally returns no match and the handler answers with the default
fallback stream: the apology text and a finish marker, then the
sentinel. -/
theorem claim_C5 (u : List Char)
    (rs : List (List Char × ResponseDescriptor))
    (h : ∀ e ∈ rs, ¬ ∃ pre post, lowerL u = pre ++ lowerL e.1 ++ post) :
    matchLoop u rs = none
    ∧ streamBody u rs = emitFallback
    ∧ emitFallback =
        [WireItem.chunkData
          { deltaContent := some fallbackText
            deltaToolCalls := none
            finishReason := some "stop".toList },
         WireItem.doneSentinel] := by
  have hb : ∀ e ∈ rs, patternMatches u e.1 = false := fun e he =>
    Bool.eq_false_iff.mpr (fun hx => h e he ((patternMatches_iff _ _).mp hx))
  refine ⟨(matchLoop_eq_none_iff u rs).mpr hb, ?_, rfl⟩
  unfold streamBody
  rw [streamScan_none_of_no_match u rs hb]
  rfl

/-- Witness for C5: the literal scenario of the spec, the empty pattern
map and the prompt `"anything"`. -/
theorem claim_C5_witness :
    matchLoop "anything".toList [] = none
    ∧ streamBody "anything".toList [] = emitFallback :=
  ⟨(claim_C5 "anything".toList [] (by simp)).1,
   (claim_C5 "anything".toList [] (by simp)).2.1⟩

/-- The literal weather scenario of the spec: the argument map of the
tool call. -/
def weatherArgs : List (List Char × List Char) :=
  [("location".toList, "San Francisco, CA".toList)]

/-- The weather `ToolCall` descriptor of the spec's literal scenario. -/
def weatherDescr : ResponseDescriptor :=
  ResponseDescriptor.toolUse "getWeather".toList weatherArgs
    "The weather in San Francisco is currently 72F and sunny".toList

/-- The one-entry pattern map of the spec's literal weather scenario. -/
def weatherMap : List (List Char × ResponseDescriptor) :=
  [("weather".toList, weatherDescr)]

/-- The prompt of the spec's literal weather scenario. -/
def weatherPrompt : List Char := "What is the weather like today?".toList

/-- Counterexample to C6 as stated: the final response
`"The weather in San Francisco is currently 72F and sunny"` has ten words,
so the emitter produces 10 text-delta chunks, not 9. -/
theorem claim_C6_counterexample :
    (textDeltas (streamBody weatherPrompt weatherMap)).length = 10
    ∧ ¬ (textDeltas (streamBody weatherPrompt weatherMap)).length = 9 := by
  decide

/-- Claim C6 (amended): in the literal weather scenario the matcher returns
the weather descriptor and the emitted stream is the `getWeather` tool-call
chunk (argument `location = "San Francisco, CA"`), then exactly 10
text-delta chunks spelling the final response word-by-word, then one finish
marker with reason `stop` and the sentinel. -/
theorem claim_C6 :
    matchLoop weatherPrompt weatherMap = some weatherDescr
    ∧ streamBody weatherPrompt weatherMap =
        WireItem.chunkData
          { deltaContent := none
            deltaToolCalls := some
              { callId := "call_test_tool".toList
                fnName := "getWeather".toList
                argumentsObj := [("location".toList, "San Francisco, CA".toList)] }
            finishReason := none }
        :: ((["The ", "weather ", "in ", "San ", "Francisco ", "is ",
              "currently ", "72F ", "and ", "sunny "].map
                (fun w => WireItem.chunkData
                  { deltaContent := some w.toList
                    deltaToolCalls := none
                    finishReason := none }))
            ++ [WireItem.chunkData
                  { deltaContent := none
                    deltaToolCalls := none
                    finishReason := some "stop".toList },
                WireItem.doneSentinel]) := by
  decide

/-- Counterexample to C7 as stated: on empty content the emitter produces
one text-delta chunk holding a single space, not zero text-delta chunks. -/
theorem claim_C7_counterexample :
    textDeltas (emitText []) = [[' ']]
    ∧ ¬ (textDeltas (emitText [])).length = 0 := by
  decide

/-- Claim C7 (amended): a `Text` descriptor with empty content does not
fail; it emits exactly one text-delta chunk containing a single space
(the empty word of `''.split(' ')` plus the appended space), then the
finish marker and the sentinel. -/
theorem claim_C7 :
    emitText [] =
      [WireItem.chunkData
        { deltaContent := some [' ']
          deltaToolCalls := none
          finishReason := none },
       WireItem.chunkData
        { deltaContent := none
          deltaToolCalls := none
          finishReason := some "stop".toList },
       WireItem.doneSentinel] := by
  decide

/-- Counterexample to C8 as stated: the dynamic mock (the handler serving
non-streamed requests) embeds a matched non-structured descriptor instead
of answering with an error payload. -/
theorem claim_C8_counterexample :
    dynamicMockReply "hi".toList
        [("hi".toList, ResponseDescriptor.text "yo".toList)]
      = NonStreamReply.embeddedArgs (ResponseDescriptor.text "yo".toList)
    ∧ ¬ dynamicMockReply "hi".toList
        [("hi".toList, ResponseDescriptor.text "yo".toList)]
      = NonStreamReply.embeddedError "No mock configured for this prompt".toList := by
  decide

/-- Claim C8 (amended): for a request with `stream` false the streaming
mock always answers with the fixed `"No mock configured"` error payload,
regardless of the pattern map; the dynamic mock embeds the first matched
descriptor whatever its shape (structured or not) and answers with an
error payload exactly when no pattern matches. -/
theorem claim_C8 (u : List Char)
    (rs : List (List Char × ResponseDescriptor)) :
    streamingMockHandler false u rs
      = MockHttpReply.jsonReply
          (NonStreamReply.embeddedError "No mock configured".toList)
    ∧ dynamicMockReply u rs =
        (match rs.find? (fun e => patternMatches u e.1) with
         | some e => NonStreamReply.embeddedArgs e.2
         | none => NonStreamReply.embeddedError
             "No mock configured for this prompt".toList) := by
  refine ⟨rfl, ?_⟩
  unfold dynamicMockReply
  rw [matchLoop_eq_find]
  cases rs.find? (fun e => patternMatches u e.1) <;> rfl

/-- Claim C9: the pattern matcher is a pure function: two calls with equal
arguments return the same result, and any returned descriptor is one of
the map's own entries. -/
theorem claim_C9 (u₁ u₂ : List Char)
    (ps₁ ps₂ : List (List Char × ResponseDescriptor))
    (h₁ : u₁ = u₂) (h₂ : ps₁ = ps₂) :
    matchLoop u₁ ps₁ = matchLoop u₂ ps₂
    ∧ ∀ d, matchLoop u₁ ps₁ = some d → d ∈ ps₁.map Prod.snd := by
  subst h₁
  subst h₂
  exact ⟨rfl, fun d hd => matchLoop_mem u₁ ps₁ d hd⟩

/-- Witness for C9 at a concrete prompt and one-entry map. -/
theorem claim_C9_witness :
    matchLoop "hi".toList [("hi".toList, ResponseDescriptor.text "a".toList)]
      = matchLoop "hi".toList [("hi".toList, ResponseDescriptor.text "a".toList)]
    ∧ ResponseDescriptor.text "a".toList ∈
        ([("hi".toList, ResponseDescriptor.text "a".toList)].map Prod.snd) := by
  have h := claim_C9 "hi".toList "hi".toList
    [("hi".toList, ResponseDescriptor.text "a".toList)]
    [("hi".toList, ResponseDescriptor.text "a".toList)] rfl rfl
  exact ⟨h.1, h.2 (ResponseDescriptor.text "a".toList) (by decide)⟩

/-- Claim C10: with no `prompt` field and no user-role message the matcher
runs against the empty string; only an empty pattern can match (an empty
pattern matches every prompt), and any map whose patterns are all
non-empty falls back. -/
theorem claim_C10 (msgs : List MockMessage)
    (h : ∀ m ∈ msgs, ¬ m.role = "user".toList) :
    extractUserMessage none (some msgs) = []
    ∧ findUserContent msgs = []
    ∧ (∀ p : List Char, p ≠ [] → patternMatches [] p = false)
    ∧ (∀ u : List Char, patternMatches u [] = true)
    ∧ ∀ rs : List (List Char × ResponseDescriptor),
        (∀ e ∈ rs, e.1 ≠ []) →
        matchLoop ([] : List Char) rs = none
          ∧ streamBody [] rs = emitFallback := by
  have hfind : msgs.find? (fun m => m.role == "user".toList) = none := by
    apply List.find?_eq_none.mpr
    intro m hm
    simpa using h m hm
  have hfuc : findUserContent msgs = [] := by
    unfold findUserContent
    rw [hfind]
  refine ⟨?_, hfuc, fun p hp => patternMatches_nil_left p hp,
    patternMatches_nil_right, ?_⟩
  · simp [extractUserMessage, hfuc]
  · intro rs hrs
    have hb : ∀ e ∈ rs, patternMatches [] e.1 = false :=
      fun e he => patternMatches_nil_left e.1 (hrs e he)
    refine ⟨(matchLoop_eq_none_iff [] rs).mpr hb, ?_⟩
    unfold streamBody
    rw [streamScan_none_of_no_match [] rs hb]
    rfl

/-- Witness for C10: a body whose only message is a system message, and a
map with the single non-empty pattern `"weather"`. -/
theorem claim_C10_witness :
    extractUserMessage none (some [⟨"system".toList, "hello".toList⟩]) = []
    ∧ matchLoop ([] : List Char)
        [("weather".toList, ResponseDescriptor.text "w".toList)] = none := by
  have h := claim_C10 [⟨"system".toList, "hello".toList⟩] (by decide)
  exact ⟨h.1,
    (h.2.2.2.2 [("weather".toList, ResponseDescriptor.text "w".toList)]
      (by decide)).1⟩

end AiTestingHono
